import Mathlib

/-!
Verification of the hop-to-location resolution pipeline of the traceroute
repository (src/src/routes/api/+server.ts), as a shallow embedding in Lean 4.

Modelling conventions:
* JavaScript numbers are modelled as `JSNum` (NaN, signed infinity, or an
  exact rational); float rounding is not modelled, which is irrelevant to the
  integer-range comparisons the code performs.
* Strings are handled through their character lists; `toLowerCase`,
  `toUpperCase`, `trim`, `split`, `String.replace` (first occurrence) and the
  two regexes `/\S+/g` and `/[a-z]{3}/g` are given executable models.
* The stateful SQLite cache of `getLocationFromIp` is threaded explicitly as
  an association list; the external HTTP fetch of `getGeolocation` is an
  oracle mapping attempt numbers to outcomes; `parseOutput`'s per-hop address
  lookup is an oracle from address strings to optional coordinates.
-/

namespace Traceroute

/-! ## Character and list primitives -/

/-- JavaScript whitespace characters (the ASCII ones; matches `\s` and
`String.prototype.trim` on the inputs this program handles). -/
def wsChar (c : Char) : Bool :=
  c == ' ' || c == '\t' || c == '\n' || c == '\r' || c == '\x0b' || c == '\x0c'

/-- Decimal value of a digit list (most significant first). -/
def decValL (l : List Char) : Nat :=
  l.foldl (fun acc c => 10 * acc + (c.toNat - 48)) 0

/-- Decimal value of a digit string. -/
def decVal (s : String) : Nat := decValL s.toList

/-- Value of a character as a digit in radix up to 36, if any. -/
def radixDigitVal (c : Char) : Option Nat :=
  if c.isDigit then some (c.toNat - 48)
  else if 'a' ≤ c ∧ c ≤ 'z' then some (c.toNat - 97 + 10)
  else if 'A' ≤ c ∧ c ≤ 'Z' then some (c.toNat - 65 + 10)
  else none

/-- Trim JS whitespace from both ends of a character list. -/
def trimWSL (l : List Char) : List Char :=
  ((l.dropWhile wsChar).reverse.dropWhile wsChar).reverse

/-- `String.prototype.trim`. -/
def strTrim (s : String) : String := String.mk (trimWSL s.toList)

/-- `String.prototype.toLowerCase` (ASCII range, as used by the code on
hostnames and table keys). -/
def strLower (s : String) : String := String.mk (s.toList.map Char.toLower)

/-- `String.prototype.toUpperCase` (ASCII range). -/
def strUpper (s : String) : String := String.mk (s.toList.map Char.toUpper)

/-- Split a character list on a separator character, JS
`String.prototype.split` style: `"" ↦ [""]`, empty fields kept. -/
def splitOnChar (sep : Char) : List Char → List (List Char)
  | [] => [[]]
  | c :: cs =>
    if c = sep then [] :: splitOnChar sep cs
    else
      match splitOnChar sep cs with
      | [] => [[c]]
      | t :: ts => (c :: t) :: ts

/-- `ip.split('.')`. -/
def splitDot (s : String) : List String :=
  (splitOnChar '.' s.toList).map String.mk

/-- Accumulator pass for `splitWSL`: `cur` holds the reversed characters of
the non-whitespace run being read. -/
def splitWSAcc : List Char → List Char → List (List Char)
  | [], cur => if cur = [] then [] else [cur.reverse]
  | c :: cs, cur =>
    if wsChar c then
      if cur = [] then splitWSAcc cs [] else cur.reverse :: splitWSAcc cs []
    else splitWSAcc cs (c :: cur)

/-- All maximal runs of non-whitespace characters: the matches of
`line.match(/\S+/g)`, with `null` rendered as `[]`. -/
def splitWSL (l : List Char) : List (List Char) := splitWSAcc l []

/-- The whitespace-separated tokens of a line. -/
def splitWS (s : String) : List String := (splitWSL s.toList).map String.mk

/-- Replace the first occurrence of `pat` in a list by `rep`
(JS `String.prototype.replace` with a string pattern). -/
def replaceOnceL (pat rep : List Char) : List Char → List Char
  | [] => if pat.isPrefixOf ([] : List Char) then rep else []
  | c :: cs =>
    if pat.isPrefixOf (c :: cs) then rep ++ (c :: cs).drop pat.length
    else c :: replaceOnceL pat rep cs

/-- `s.replace(pat, rep)` for string patterns (first occurrence only). -/
def jsReplace (s pat rep : String) : String :=
  String.mk (replaceOnceL pat.toList rep.toList s.toList)

/-- Contiguous-substring test: `hay.includes(needle)`. -/
def strContainsB (hay needle : String) : Bool :=
  hay.toList.tails.any (fun suf => needle.toList.isPrefixOf suf)

/-! ## JavaScript numbers -/

/-- A JavaScript number: NaN, an infinity, or a finite value (modelled
exactly as a rational). -/
inductive JSNum where
  | nan : JSNum
  | inf : Bool → JSNum
  | num : ℚ → JSNum
deriving DecidableEq

/-- `isNaN(x)` for a number argument. -/
def JSNum.isNaNB : JSNum → Bool
  | .nan => true
  | _ => false

/-- `x < c` for a rational constant `c`. -/
def JSNum.ltq : JSNum → ℚ → Bool
  | .nan, _ => false
  | .inf b, _ => !b
  | .num q, c => q < c

/-- `x > c` for a rational constant `c`. -/
def JSNum.gtq : JSNum → ℚ → Bool
  | .nan, _ => false
  | .inf b, _ => b
  | .num q, c => c < q

/-- `x >= c` for a rational constant `c`. -/
def JSNum.geq : JSNum → ℚ → Bool
  | .nan, _ => false
  | .inf b, _ => b
  | .num q, c => c ≤ q

/-- `x <= c` for a rational constant `c`. -/
def JSNum.leq : JSNum → ℚ → Bool
  | .nan, _ => false
  | .inf b, _ => !b
  | .num q, c => q ≤ c

/-- Strict equality `x === c` against a rational constant. -/
def JSNum.eqq : JSNum → ℚ → Bool
  | .num q, c => q == c
  | _, _ => false

/-- Multiplication by a positive rational constant (used for
`parseInt(retryAfter) * 1000`; NaN propagates, infinities keep their sign). -/
def JSNum.mulPos : JSNum → ℚ → JSNum
  | .nan, _ => .nan
  | .inf b, _ => .inf b
  | .num q, c => .num (q * c)

/-- Exact value of the decimal literal `ipart . fpart × 10 ^ e`, computed as
`digits(ipart ++ fpart) × 10 ^ (e - |fpart|)` so that only `Nat` arithmetic
and `Rat.divInt` occur (both kernel-computable). -/
def decLitVal (ipart fpart : List Char) (e : ℤ) : ℚ :=
  let scale : ℤ := e - fpart.length
  if 0 ≤ scale then ((decValL (ipart ++ fpart) * 10 ^ scale.toNat : Nat) : ℚ)
  else Rat.divInt ((decValL (ipart ++ fpart) : Nat) : ℤ) (((10 ^ (-scale).toNat : Nat) : ℤ))

/-- The optional exponent suffix of a decimal literal: empty means exponent 0;
`e`/`E` followed by an optionally signed digit run; anything else is a
syntax error (`none`). -/
def parseSignedDigits : List Char → Option ℤ
  | '+' :: r => if r ≠ [] ∧ r.all Char.isDigit then some (decValL r : ℤ) else none
  | '-' :: r => if r ≠ [] ∧ r.all Char.isDigit then some (-(decValL r : ℤ)) else none
  | r => if r ≠ [] ∧ r.all Char.isDigit then some (decValL r : ℤ) else none

/-- See `parseSignedDigits`. -/
def parseExpPart : List Char → Option ℤ
  | [] => some 0
  | 'e' :: r => parseSignedDigits r
  | 'E' :: r => parseSignedDigits r
  | _ => none

/-- An unsigned decimal literal `Digits ['.' Digits?] [Exp] | '.' Digits [Exp]`,
with nothing allowed after it. -/
def parseDecCore (l : List Char) : Option ℚ :=
  let ipart := l.takeWhile Char.isDigit
  let rest1 := l.dropWhile Char.isDigit
  match rest1 with
  | '.' :: r2 =>
    let fpart := r2.takeWhile Char.isDigit
    let rest2 := r2.dropWhile Char.isDigit
    if ipart = [] ∧ fpart = [] then none
    else (parseExpPart rest2).map (fun e => decLitVal ipart fpart e)
  | _ =>
    if ipart = [] then none
    else (parseExpPart rest1).map (fun e => decLitVal ipart [] e)

/-- A non-decimal integer literal body in radix `r` (all characters must be
digits of that radix, at least one). -/
def radixVal (r : Nat) (l : List Char) : JSNum :=
  if l ≠ [] ∧ l.all (fun c => (radixDigitVal c).elim false (· < r)) then
    .num ((l.foldl (fun acc c => r * acc + (radixDigitVal c).getD 0) 0 : Nat) : ℚ)
  else .nan

/-- Signed part of a string decimal literal: `Infinity` or a decimal literal. -/
def strUnsigned (pos : Bool) (l : List Char) : JSNum :=
  if l = "Infinity".toList then .inf pos
  else
    match parseDecCore l with
    | some q => .num (if pos then q else Rat.neg q)
    | none => .nan

/-- `StrDecimalLiteral`: optional sign, then `Infinity` or a decimal literal. -/
def strDecLiteral : List Char → JSNum
  | '+' :: r => strUnsigned true r
  | '-' :: r => strUnsigned false r
  | l => strUnsigned true l

/-- String-to-number after trimming: empty is `0`; `0x`/`0o`/`0b` prefixes
select a radix literal; otherwise a signed decimal literal. -/
def strToNumL : List Char → JSNum
  | [] => .num 0
  | c0 :: c1 :: r =>
    if c0 = '0' ∧ (c1 = 'x' ∨ c1 = 'X') then radixVal 16 r
    else if c0 = '0' ∧ (c1 = 'o' ∨ c1 = 'O') then radixVal 8 r
    else if c0 = '0' ∧ (c1 = 'b' ∨ c1 = 'B') then radixVal 2 r
    else strDecLiteral (c0 :: c1 :: r)
  | [c] => strDecLiteral [c]

/-- JavaScript `Number(string)`. -/
def jsStrToNum (s : String) : JSNum := strToNumL (trimWSL s.toList)

/-- The longest digit prefix of a list together with its value in radix `r`. -/
def radixPrefix (r : Nat) (l : List Char) : List Char :=
  l.takeWhile (fun c => (radixDigitVal c).elim false (· < r))

/-- JavaScript `parseInt(string)` (no radix argument): trim leading
whitespace, optional sign, then a `0x` hex literal prefix or a decimal digit
prefix; no digits means NaN; trailing garbage is ignored. -/
def jsParseInt (s : String) : JSNum :=
  let l := s.toList.dropWhile wsChar
  let core : List Char → Bool → JSNum := fun body pos =>
    match body with
    | '0' :: c1 :: r =>
      if c1 = 'x' ∨ c1 = 'X' then
        let ds := radixPrefix 16 r
        if ds = [] then .nan
        else .num ((ds.foldl (fun acc c => 16 * acc + (radixDigitVal c).getD 0) 0 : Nat) : ℚ)
      else
        let ds := radixPrefix 10 ('0' :: c1 :: r)
        .num (if pos then ((decValL ds : Nat) : ℚ) else Rat.neg ((decValL ds : Nat) : ℚ))
    | body =>
      let ds := radixPrefix 10 body
      if ds = [] then .nan
      else .num (if pos then ((decValL ds : Nat) : ℚ) else Rat.neg ((decValL ds : Nat) : ℚ))
  match l with
  | '+' :: r => core r true
  | '-' :: r => core r false
  | _ => core l true

/-! ## Static reference data and result records -/

/-- One row of the raw city table (`worldcities.json`), restricted to the
fields the code reads; `population` holds the value of
`Number(city.population)`. -/
structure CityRec where
  city : String
  population : ℚ
  lat : ℚ
  lng : ℚ
deriving DecidableEq

/-- One value of the airport table (`airports.json` indexed by lowercased
code), restricted to the fields the code reads. -/
structure AirportRec where
  url : String
  icao : String
  city : String
  latitude : ℚ
  longitude : ℚ
deriving DecidableEq

/-- The `domainAnalysis` payload attached to a hop; `population` is `none`
when the producing branch sets no `population` field. -/
structure DomainAnalysis where
  cityOrAirport : String
  coordinates : ℚ × ℚ
  population : Option ℚ
deriving DecidableEq

/-- A `ProbeResult` record as pushed by `parseOutput`. -/
structure ProbeResult where
  index : JSNum
  delay : JSNum
  domain : String
  ip : String
  domainAnalysis : Option DomainAnalysis
deriving DecidableEq

/-- A persisted row of the `ips` table. -/
structure CacheRow where
  lat : Option ℚ
  lng : Option ℚ
  isPrivate : Bool
deriving DecidableEq

/-- The persistent `ips` table, as an association list in insertion order
(the `ip` column is the primary key, so keys are unique in reachable states). -/
abbrev Cache := List (String × CacheRow)

/-- `SELECT * FROM ips WHERE ip=?` (at most one row since `ip` is the key). -/
def cacheLookup (db : Cache) (ip : String) : Option CacheRow :=
  (db.find? (fun row => row.1 == ip)).map (fun row => row.2)

/-- The `KNOWN_REPLACEMENTS` map from the source. -/
def KNOWN_REPLACEMENTS (s : String) : Option String :=
  if s = "hls" then some "hel"
  else if s = "sto" then some "arn"
  else if s = "kbn" then some "cph"
  else if s = "kan" then some "mci"
  else if s = "pal" then some "pao"
  else if s = "chi" then some "ord"
  else none

/-! ## isPrivateIP -/

/-- `isPrivateIP` from the source: split on `'.'`, convert each part with
`Number`, reject unless there are exactly 4 parts all in `[0, 255]`, then
test the five reserved ranges. -/
def isPrivateIP (ip : String) : Bool :=
  let parts := (splitDot ip).map jsStrToNum
  if parts.length ≠ 4 ∨ parts.any (fun p => p.isNaNB || p.ltq 0 || p.gtq 255) then
    false
  else
    let p0 := parts.getD 0 .nan
    let p1 := parts.getD 1 .nan
    p0.eqq 10 ||
    (p0.eqq 172 && p1.geq 16 && p1.leq 31) ||
    (p0.eqq 192 && p1.eqq 168) ||
    p0.eqq 127 ||
    (p0.eqq 169 && p1.eqq 254)

/-! ## getGeolocation: provider transport layer -/

/-- A JSON value as produced by `JSON.parse` (plus the `[null, null]`
sentinel arrays the code itself builds). -/
inductive JSVal where
  | vnull : JSVal
  | vbool : Bool → JSVal
  | vnum : ℚ → JSVal
  | vstr : String → JSVal
  | vobj : List (String × JSVal) → JSVal
  | varr : List JSVal → JSVal

/-- Property lookup on an object's field list (keys unique after
`JSON.parse`). -/
def lookupField (fields : List (String × JSVal)) (k : String) : Option JSVal :=
  (fields.find? (fun f => f.1 == k)).map (fun f => f.2)

/-- `k in v`: property-existence test; false on non-objects (the code only
asks about the non-index keys `lat`/`lon` etc., never present on its arrays). -/
def JSVal.hasField : JSVal → String → Bool
  | .vobj fs, k => (lookupField fs k).isSome
  | _, _ => false

/-- `v[k]` when present (only evaluated by the code under `hasField`). -/
def JSVal.getField : JSVal → String → JSVal
  | .vobj fs, k => (lookupField fs k).getD .vnull
  | _, _ => .vnull

/-- JS truthiness of a parsed JSON value. -/
def JSVal.truthy : JSVal → Bool
  | .vnull => false
  | .vbool b => b
  | .vnum q => q != 0
  | .vstr s => s != ""
  | .vobj _ => true
  | .varr _ => true

/-- `typeof v === 'object'` for a parsed JSON value. -/
def JSVal.isObjType : JSVal → Bool
  | .vnull => true
  | .vobj _ => true
  | .varr _ => true
  | _ => false

/-- `Number(v)` for a parsed JSON value (array cases follow the
string-coercion round trip on the shapes that arise here). -/
def jsToNumber : JSVal → JSNum
  | .vnull => .num 0
  | .vbool b => .num (if b then 1 else 0)
  | .vnum q => .num q
  | .vstr s => jsStrToNum s
  | .vobj _ => .nan
  | .varr [] => .num 0
  | .varr [v] => jsToNumber v
  | .varr (_ :: _ :: _) => .nan

/-- `val === 0`: strict equality against the number zero. -/
def JSVal.isZero : JSVal → Bool
  | .vnum q => q == 0
  | _ => false

/-- The `valid` helper of `getGeolocation`: `!!val || val === 0`. -/
def validB (v : JSVal) : Bool := v.truthy || v.isZero

/-- The `[null, null]` sentinel that `tryWithRetry` returns on failure. -/
def nullBody : JSVal := .varr [.vnull, .vnull]

/-- Outcome of one `fetch` of a provider URL, at the granularity
`tryWithRetry` inspects it: a 429 with an optional `Retry-After` header
value, a non-ok status, a transport error, an unparsable body, or a parsed
JSON body. -/
inductive FetchOutcome where
  | rate429 : Option String → FetchOutcome
  | httpErr : Nat → FetchOutcome
  | fetchErr : FetchOutcome
  | parseErr : FetchOutcome
  | okBody : JSVal → FetchOutcome

/-- The backoff delay computed for a 429: `retryAfter ? parseInt(retryAfter)
* 1000 : 5000` (a missing or empty header falls back to 5000 ms). -/
def waitOf : Option String → JSNum
  | none => .num 5000
  | some s => if s = "" then .num 5000 else (jsParseInt s).mulPos 1000

/-- Observable behaviour of one `tryWithRetry` call: the value it returns
(`nullBody` for the `[null, null]` failures), how many fetches it issued,
and the sleep durations it performed, in order. -/
structure TWRes where
  body : JSVal
  fetches : Nat
  waits : List JSNum

/-- Fuelled body of `tryWithRetry`; the fuel equals `maxRetries - retries`
at every reachable call, so the zero-fuel inner branch is never taken below
the ceiling (see `tryWithRetry_recurrence`). -/
def tryWithRetryF (resp : Nat → FetchOutcome) (maxRetries : Nat) (retries : Nat)
    (fuel : Nat) : TWRes :=
  match resp retries with
  | .rate429 ra =>
    if maxRetries ≤ retries then ⟨nullBody, 1, []⟩
    else
      match fuel with
      | 0 => ⟨nullBody, 1, []⟩
      | fuel' + 1 =>
        let r := tryWithRetryF resp maxRetries (retries + 1) fuel'
        ⟨r.body, r.fetches + 1, waitOf ra :: r.waits⟩
  | .httpErr _ => ⟨nullBody, 1, []⟩
  | .fetchErr => ⟨nullBody, 1, []⟩
  | .parseErr => ⟨nullBody, 1, []⟩
  | .okBody v => ⟨v, 1, []⟩

/-- `tryWithRetry` from the source: `resp n` is the outcome of the fetch
performed with `retries = n`. On a 429 at the retry ceiling it gives up;
below the ceiling it sleeps `waitOf` and retries; every other outcome ends
the loop at once (errors yield `nullBody`, success yields the body). -/
def tryWithRetry (resp : Nat → FetchOutcome) (maxRetries : Nat) (retries : Nat) : TWRes :=
  tryWithRetryF resp maxRetries retries (maxRetries - retries)

/-- The recursion of the source's `tryWithRetry`, recovered as a theorem:
below the ceiling a 429 sleeps and retries with `retries + 1`. -/
theorem tryWithRetry_recurrence (resp : Nat → FetchOutcome) (maxRetries retries : Nat)
    (ra : Option String) (hresp : resp retries = .rate429 ra) :
    tryWithRetry resp maxRetries retries =
      if maxRetries ≤ retries then ⟨nullBody, 1, []⟩
      else
        ⟨(tryWithRetry resp maxRetries (retries + 1)).body,
         (tryWithRetry resp maxRetries (retries + 1)).fetches + 1,
         waitOf ra :: (tryWithRetry resp maxRetries (retries + 1)).waits⟩ := by
  by_cases h : maxRetries ≤ retries
  · rw [tryWithRetry, tryWithRetryF.eq_def, hresp]
    simp [h]
  · have hf : maxRetries - retries = (maxRetries - (retries + 1)) + 1 := by omega
    rw [tryWithRetry, hf, tryWithRetryF.eq_def, hresp]
    simp only [if_neg h]
    rfl

/-- The per-provider acceptance check of `getGeolocation`: the guarded
`if`-block that returns `rawLatLon.map(Number)` when the body is a non-null
object carrying both keys with `valid` values, and otherwise falls through. -/
def providerCheck (body : JSVal) (k1 k2 : String) : Option (JSNum × JSNum) :=
  if body.truthy && body.isObjType && body.hasField k1 && body.hasField k2 then
    let la := body.getField k1
    let lo := body.getField k2
    if validB la && validB lo then some (jsToNumber la, jsToNumber lo) else none
  else none

/-- Observable behaviour of `getGeolocation`: the returned pair (`none` for
`[null, null]`), the first provider's transport record, and the second
provider's record when that provider was consulted. -/
structure GeoRes where
  result : Option (JSNum × JSNum)
  p1 : TWRes
  p2 : Option TWRes

/-- `getGeolocation` from the source: query `ip-api.com` (keys `lat`/`lon`),
and on anything but a valid pair fall through to `ipapi.co` (keys
`latitude`/`longitude`); `resp1`/`resp2` are the fetch oracles of the two
providers. -/
def getGeolocation (resp1 resp2 : Nat → FetchOutcome) (maxRetries : Nat) : GeoRes :=
  let r1 := tryWithRetry resp1 maxRetries 0
  match providerCheck r1.body "lat" "lon" with
  | some c => ⟨some c, r1, none⟩
  | none =>
    let r2 := tryWithRetry resp2 maxRetries 0
    match providerCheck r2.body "latitude" "longitude" with
    | some c => ⟨some c, r1, some r2⟩
    | none => ⟨none, r1, some r2⟩

/-! ## getLocationFromIp: the cached address resolver -/

/-- `getLocationFromIp` from the source, with the `getGeolocation` call
abstracted as a deterministic oracle `geo` (its `[null, null]` failure is
`none`). Returns the resolved coordinates, the updated table, and whether
the external lookup was invoked. -/
def getLocationFromIp (geo : String → Option (ℚ × ℚ)) (db : Cache) (ip : String) :
    Option (ℚ × ℚ) × Cache × Bool :=
  match cacheLookup db ip with
  | some row =>
    if row.isPrivate then (none, db, false)
    else
      match row.lat, row.lng with
      | some la, some ln => (some (la, ln), db, false)
      | _, _ => (none, db, false)
  | none =>
    if isPrivateIP ip then
      (none, db ++ [(ip, ⟨none, none, true⟩)], false)
    else
      let coords := geo ip
      (coords, db ++ [(ip, ⟨coords.map Prod.fst, coords.map Prod.snd, false⟩)], true)

/-! ## parseOutput: the pipeline orchestrator -/

/-- `'a' ≤ c ≤ 'z'`: the character class of `/[a-z]{3}/`. -/
def lcLetter (c : Char) : Bool := 'a' ≤ c && c ≤ 'z'

/-- Fuelled scanner for `extractTokens` (the fuel is an upper bound on the
characters left, making the one-character advance structural). -/
def extractTokensF : Nat → List Char → List String
  | 0, _ => []
  | fuel + 1, a :: b :: c :: rest =>
    if lcLetter a && lcLetter b && lcLetter c then
      String.mk [a, b, c] :: extractTokensF fuel rest
    else extractTokensF fuel (b :: c :: rest)
  | _ + 1, _ => []

/-- All matches of `/[a-z]{3}/g` over a character list, scanning left to
right: at each position, three consecutive lowercase letters form a match
and scanning resumes after it; otherwise scanning advances one character. -/
def extractTokens (l : List Char) : List String := extractTokensF l.length l

/-- The static configuration and collaborator tables `parseOutput` reads:
the `AIRPORT_CITY_FIRST` flag, the raw city list, the two pre-indexed maps
(lookup by lowercased key), and the address-resolution oracle standing for
`getGeolocation`. -/
structure Config where
  tryAirportAndCityMatchBeforeIpLookup : Bool
  rawCityData : List CityRec
  cityData : String → Option CityRec
  airportData : String → Option AirportRec
  geo : String → Option (ℚ × ℚ)

/-- The match condition of the city loop:
`domain.toLowerCase().includes(city.city.toLocaleLowerCase()) && city.city.length > 5`. -/
def cityMatches (domain : String) (c : CityRec) : Bool :=
  strContainsB (strLower domain) (strLower c.city) && decide (5 < c.city.length)

/-- The `population` of the guess accumulated so far:
`result.domainAnalysis?.population || 0`. -/
def accPop (acc : Option DomainAnalysis) : ℚ :=
  match acc with
  | none => 0
  | some da => da.population.getD 0

/-- One iteration of the city loop body. -/
def cityStep (domain : String) (acc : Option DomainAnalysis) (c : CityRec) :
    Option DomainAnalysis :=
  if cityMatches domain c then
    if c.population > 5000 ∧ c.population > accPop acc then
      some ⟨strLower c.city, (c.lat, c.lng), some c.population⟩
    else acc
  else acc

/-- The city-substring pass of `parseOutput` (`for (let city of rawCityData)`). -/
def cityPass (cities : List CityRec) (domain : String) : Option DomainAnalysis :=
  cities.foldl (cityStep domain) none

/-- Token normalization before airport lookup:
`KNOWN_REPLACEMENTS.get(match.toLocaleLowerCase().trim())`, keeping the
original token when there is no replacement. -/
def normalizeToken (m : String) : String :=
  match KNOWN_REPLACEMENTS (strTrim (strLower m)) with
  | some r => r
  | none => m

/-- Airport lookup for one (already normalized) token: fails when the entry
is missing, has an empty `url` or `icao`, or its city's population in
`cityData` (0 when absent) is below 25000; otherwise produces the guess
labeled with the uppercased token. -/
def usableLookup (aD : String → Option AirportRec) (cD : String → Option CityRec)
    (m : String) : Option DomainAnalysis :=
  match aD (strLower m) with
  | none => none
  | some data =>
    if data.url = "" ∨ data.icao = "" ∨
        ((cD (strTrim (strLower data.city))).map (fun c => c.population)).getD 0 < 25000 then
      none
    else some ⟨strUpper m, (data.latitude, data.longitude), none⟩

/-- The token loop of the airport pass: first usable match wins. -/
def tokenScan (aD : String → Option AirportRec) (cD : String → Option CityRec) :
    List String → Option DomainAnalysis
  | [] => none
  | m :: rest =>
    match usableLookup aD cD (normalizeToken m) with
    | some da => some da
    | none => tokenScan aD cD rest

/-- The airport-token pass of `parseOutput`: extract the `/[a-z]{3}/g`
matches of the hostname (as written, not lowercased) and scan them. -/
def tokenPass (aD : String → Option AirportRec) (cD : String → Option CityRec)
    (domain : String) : Option DomainAnalysis :=
  tokenScan aD cD (extractTokens domain.toList)

/-- The per-hop resolution strategy of `parseOutput`'s loop body, threading
the cache: address-only when the flag is off (guess labeled `"unknown"`,
population 0); otherwise city pass, then token pass, then address fallback.
The Bool records whether the address lookup was invoked. -/
def resolveHop (cfg : Config) (domain ip : String) (db : Cache) :
    Option DomainAnalysis × Cache × Bool :=
  if cfg.tryAirportAndCityMatchBeforeIpLookup = false then
    let (g, db', called) := getLocationFromIp cfg.geo db ip
    (g.map (fun c => ⟨"unknown", c, some 0⟩), db', called)
  else
    match cityPass cfg.rawCityData domain with
    | some da => (some da, db, false)
    | none =>
      match tokenPass cfg.airportData cfg.cityData domain with
      | some da => (some da, db, false)
      | none =>
        let (g, db', called) := getLocationFromIp cfg.geo db ip
        (g.map (fun c => ⟨"unknown", c, some 0⟩), db', called)

/-- `parts[2].replace("(", "").replace(")", "")`. -/
def stripParens (s : String) : String :=
  jsReplace (jsReplace s "(" "") ")" ""

/-- The line parser at the head of `parseOutput`'s loop: tokenize with
`/\S+/g`; any token count other than 5 discards the line; otherwise the
record fields are `Number(parts[0])`, `parts[1]`, `parts[2]` with the
parentheses removed, and `Number(parts[3])`. -/
def parseLine (line : String) : Option (JSNum × String × String × JSNum) :=
  let parts := splitWS line
  if parts.length ≠ 5 then none
  else some (jsStrToNum (parts.getD 0 ""), parts.getD 1 "",
    stripParens (parts.getD 2 ""), jsStrToNum (parts.getD 3 ""))

/-- The loop of `parseOutput` over all lines, accumulating pushed records in
order and threading the cache. -/
def parseOutputAux (cfg : Config) : List String → Cache → List ProbeResult × Cache
  | [], db => ([], db)
  | line :: rest, db =>
    match parseLine line with
    | none => parseOutputAux cfg rest db
    | some (idx, domain, ip, delay) =>
      let (da, db', _) := resolveHop cfg domain ip db
      let (rs, db'') := parseOutputAux cfg rest db'
      (⟨idx, delay, domain, ip, da⟩ :: rs, db'')

/-- `parseOutput` from the source: run the loop, then `results.slice(1)`. -/
def parseOutput (cfg : Config) (lines : List String) (db : Cache) :
    List ProbeResult × Cache :=
  let (rs, db') := parseOutputAux cfg lines db
  (rs.drop 1, db')

/-- The record a line contributes before resolution (its `domainAnalysis`
still absent). -/
def parsedRecord (line : String) : Option ProbeResult :=
  (parseLine line).map (fun p => ⟨p.1, p.2.2.2, p.2.1, p.2.2.1, none⟩)

/-- Forget a record's `domainAnalysis`. -/
def stripAnalysis (r : ProbeResult) : ProbeResult :=
  ⟨r.index, r.delay, r.domain, r.ip, none⟩

/-! ## Structure of the orchestrator's output (claims C1, C2) -/

theorem parseOutputAux_fst_strip (cfg : Config) :
    ∀ (lines : List String) (db : Cache),
      ((parseOutputAux cfg lines db).1).map stripAnalysis = lines.filterMap parsedRecord := by
  intro lines
  induction lines with
  | nil => intro db; simp [parseOutputAux]
  | cons line rest ih =>
    intro db
    cases h : parseLine line with
    | none => simp [parseOutputAux, h, ih, parsedRecord]
    | some p =>
      obtain ⟨idx, domain, ip, delay⟩ := p
      simp [parseOutputAux, h, ih, parsedRecord, stripAnalysis]

theorem length_filterMap_eq_countP (f : String → Option ProbeResult) :
    ∀ l : List String, (l.filterMap f).length = l.countP (fun x => (f x).isSome) := by
  intro l
  induction l with
  | nil => simp
  | cons x xs ih =>
    cases h : f x with
    | none => simp [List.filterMap_cons, h, ih, List.countP_cons]
    | some r => simp [List.filterMap_cons, h, ih, List.countP_cons]

theorem parsedRecord_isSome (line : String) :
    (parsedRecord line).isSome = (parseLine line).isSome := by
  cases h : parseLine line <;> simp [parsedRecord, h]

/-- Claim C1: for every list of input lines, `parseOutput` emits exactly the
records of the successfully parsed lines, in original order, with the first
parsed hop removed; its length is the number of parseable lines minus one
(truncated at zero). Records are emitted regardless of whether resolution
attached a guess, so hops with an absent `domainAnalysis` remain in the
sequence. -/
theorem output_is_parsed_lines_drop_first (cfg : Config) (lines : List String) (db : Cache) :
    ((parseOutput cfg lines db).1).map stripAnalysis = (lines.filterMap parsedRecord).drop 1
    ∧ ((parseOutput cfg lines db).1).length
        = lines.countP (fun l => (parseLine l).isSome) - 1 := by
  constructor
  · show ((parseOutputAux cfg lines db).1.drop 1).map stripAnalysis = _
    rw [List.map_drop, parseOutputAux_fst_strip]
  · show ((parseOutputAux cfg lines db).1.drop 1).length = _
    rw [List.length_drop]
    have h1 : (parseOutputAux cfg lines db).1.length
        = ((parseOutputAux cfg lines db).1.map stripAnalysis).length := by
      rw [List.length_map]
    rw [h1, parseOutputAux_fst_strip, length_filterMap_eq_countP]
    congr 1
    exact List.countP_congr (fun l _ => by rw [parsedRecord_isSome])

theorem parseOutputAux_skip (cfg : Config) (line : String) (h : parseLine line = none) :
    ∀ (pre post : List String) (db : Cache),
      parseOutputAux cfg (pre ++ line :: post) db = parseOutputAux cfg (pre ++ post) db := by
  intro pre
  induction pre with
  | nil => intro post db; simp [parseOutputAux, h]
  | cons p pre ih =>
    intro post db
    cases hp : parseLine p with
    | none => simp [parseOutputAux, hp, ih]
    | some q =>
      obtain ⟨idx, domain, ip, delay⟩ := q
      simp [parseOutputAux, hp, ih]

/-- Claim C2: a line whose `/\S+/g` token count is not 5 yields no record and
contributes nothing to the output of `parseOutput` wherever it occurs (it is
skipped, not an error); a line with exactly 5 tokens yields the record whose
index is the converted first token, whose hostname is the second token, whose
address is the third token with its parentheses removed, and whose delay is
the converted fourth token. -/
theorem token_count_five_rule (cfg : Config) (db : Cache) (pre post : List String)
    (line : String) :
    ((splitWS line).length ≠ 5 →
      parseLine line = none
      ∧ parseOutput cfg (pre ++ line :: post) db = parseOutput cfg (pre ++ post) db)
    ∧ ((splitWS line).length = 5 →
      parseLine line = some (jsStrToNum ((splitWS line).getD 0 ""), (splitWS line).getD 1 "",
        stripParens ((splitWS line).getD 2 ""), jsStrToNum ((splitWS line).getD 3 ""))) := by
  constructor
  · intro h
    have hnone : parseLine line = none := by simp [parseLine, h]
    exact ⟨hnone, by unfold parseOutput; rw [parseOutputAux_skip cfg line hnone]⟩
  · intro h
    simp [parseLine, h]

/-! ## Digit strings, dotted quads and the private-range classifier (C3) -/

theorem takeWhile_all {p : Char → Bool} :
    ∀ l : List Char, (∀ c ∈ l, p c = true) → l.takeWhile p = l := by
  intro l
  induction l with
  | nil => simp
  | cons c cs ih =>
    intro h
    simp [List.takeWhile_cons, h c (by simp), ih (fun x hx => h x (by simp [hx]))]

theorem dropWhile_all {p : Char → Bool} :
    ∀ l : List Char, (∀ c ∈ l, p c = true) → l.dropWhile p = [] := by
  intro l
  induction l with
  | nil => simp
  | cons c cs ih =>
    intro h
    simp only [List.dropWhile_cons, h c (by simp), if_true,
      ih (fun x hx => h x (by simp [hx]))]

theorem dropWhile_none {p : Char → Bool} :
    ∀ l : List Char, (∀ c ∈ l, p c = false) → l.dropWhile p = l := by
  intro l
  cases l with
  | nil => simp
  | cons c cs => intro h; simp [List.dropWhile_cons, h c (by simp)]

theorem digit_not_ws {c : Char} (h : c.isDigit = true) : wsChar c = false := by
  simp only [Char.isDigit] at h
  simp only [wsChar, Bool.or_eq_false_iff, beq_eq_false_iff_ne]
  refine ⟨⟨⟨⟨⟨?_, ?_⟩, ?_⟩, ?_⟩, ?_⟩, ?_⟩ <;> (rintro rfl; revert h; decide)

theorem trimWSL_digits {l : List Char} (h : ∀ c ∈ l, c.isDigit = true) :
    trimWSL l = l := by
  unfold trimWSL
  rw [dropWhile_none l (fun c hc => digit_not_ws (h c hc)),
    dropWhile_none l.reverse (fun c hc => digit_not_ws (h c (List.mem_reverse.mp hc))),
    List.reverse_reverse]

theorem parseDecCore_digits (l : List Char) (hne : l ≠ []) (h : ∀ c ∈ l, c.isDigit = true) :
    parseDecCore l = some ((decValL l : Nat) : ℚ) := by
  unfold parseDecCore
  rw [takeWhile_all l h, dropWhile_all l h]
  simp [hne, parseExpPart, decLitVal]

theorem strDecLiteral_digits (l : List Char) (hne : l ≠ []) (h : ∀ c ∈ l, c.isDigit = true) :
    strDecLiteral l = .num ((decValL l : Nat) : ℚ) := by
  have hInf : l ≠ "Infinity".toList := by
    intro heq
    have := h 'I' (by rw [heq]; decide)
    revert this; decide
  cases l with
  | nil => exact absurd rfl hne
  | cons c cs =>
    have hc : c.isDigit = true := h c (by simp)
    have hp : c ≠ '+' := by rintro rfl; revert hc; decide
    have hm : c ≠ '-' := by rintro rfl; revert hc; decide
    rw [strDecLiteral.eq_def]
    split
    · next r heq => injection heq with hh _; exact absurd hh hp
    · next r heq => injection heq with hh _; exact absurd hh hm
    · rw [strUnsigned, if_neg hInf, parseDecCore_digits _ hne h]
      simp

theorem strToNumL_digits (l : List Char) (hne : l ≠ []) (h : ∀ c ∈ l, c.isDigit = true) :
    strToNumL l = .num ((decValL l : Nat) : ℚ) := by
  match l, hne with
  | [c], _ =>
    rw [strToNumL]
    exact strDecLiteral_digits [c] (by simp) h
  | c0 :: c1 :: r, _ =>
    have h1 : c1.isDigit = true := h c1 (by simp)
    rw [strToNumL,
      if_neg (by rintro ⟨_, rfl | rfl⟩ <;> (revert h1; decide)),
      if_neg (by rintro ⟨_, rfl | rfl⟩ <;> (revert h1; decide)),
      if_neg (by rintro ⟨_, rfl | rfl⟩ <;> (revert h1; decide))]
    exact strDecLiteral_digits _ (by simp) h

theorem jsStrToNum_digits (s : String) (hne : s.toList ≠ [])
    (h : ∀ c ∈ s.toList, c.isDigit = true) :
    jsStrToNum s = .num ((decVal s : Nat) : ℚ) := by
  rw [jsStrToNum, trimWSL_digits h, strToNumL_digits _ hne h, decVal]

theorem splitOnChar_nosep (sep : Char) :
    ∀ l : List Char, (∀ c ∈ l, c ≠ sep) → splitOnChar sep l = [l] := by
  intro l
  induction l with
  | nil => simp [splitOnChar]
  | cons c cs ih =>
    intro h
    have hc : c ≠ sep := h c (by simp)
    simp [splitOnChar, hc, ih (fun x hx => h x (by simp [hx]))]

theorem splitOnChar_sep_append (sep : Char) :
    ∀ l rest : List Char, (∀ c ∈ l, c ≠ sep) →
      splitOnChar sep (l ++ sep :: rest) = l :: splitOnChar sep rest := by
  intro l
  induction l with
  | nil => intro rest h; simp [splitOnChar]
  | cons c cs ih =>
    intro rest h
    have hc : c ≠ sep := h c (by simp)
    simp [splitOnChar, hc, ih rest (fun x hx => h x (by simp [hx]))]

theorem digit_ne_dot {c : Char} (h : c.isDigit = true) : c ≠ '.' := by
  rintro rfl; revert h; decide

theorem splitDot_quad (s0 s1 s2 s3 : String)
    (h0 : ∀ c ∈ s0.toList, c.isDigit = true) (h1 : ∀ c ∈ s1.toList, c.isDigit = true)
    (h2 : ∀ c ∈ s2.toList, c.isDigit = true) (h3 : ∀ c ∈ s3.toList, c.isDigit = true) :
    splitDot (s0 ++ "." ++ s1 ++ "." ++ s2 ++ "." ++ s3) = [s0, s1, s2, s3] := by
  unfold splitDot
  have hlist : (s0 ++ "." ++ s1 ++ "." ++ s2 ++ "." ++ s3).toList
      = s0.toList ++ '.' :: (s1.toList ++ '.' :: (s2.toList ++ '.' :: s3.toList)) := by
    show (s0 ++ "." ++ s1 ++ "." ++ s2 ++ "." ++ s3).data = _
    simp [String.data_append]
  rw [hlist,
    splitOnChar_sep_append '.' _ _ (fun c hc => digit_ne_dot (h0 c hc)),
    splitOnChar_sep_append '.' _ _ (fun c hc => digit_ne_dot (h1 c hc)),
    splitOnChar_sep_append '.' _ _ (fun c hc => digit_ne_dot (h2 c hc)),
    splitOnChar_nosep '.' _ (fun c hc => digit_ne_dot (h3 c hc))]
  rfl

/-- The reserved first octets of the claim: `10/8`, `172.16/12`, `192.168/16`,
`127/8` and `169.254/16`. -/
def reservedFirstOctets (a b : Nat) : Prop :=
  a = 10 ∨ (a = 172 ∧ 16 ≤ b ∧ b ≤ 31) ∨ (a = 192 ∧ b = 168) ∨ a = 127 ∨ (a = 169 ∧ b = 254)

theorem isPrivateIP_digitQuad (s0 s1 s2 s3 : String)
    (h0 : s0.toList ≠ [] ∧ ∀ c ∈ s0.toList, c.isDigit = true)
    (h1 : s1.toList ≠ [] ∧ ∀ c ∈ s1.toList, c.isDigit = true)
    (h2 : s2.toList ≠ [] ∧ ∀ c ∈ s2.toList, c.isDigit = true)
    (h3 : s3.toList ≠ [] ∧ ∀ c ∈ s3.toList, c.isDigit = true)
    (hv0 : decVal s0 ≤ 255) (hv1 : decVal s1 ≤ 255)
    (hv2 : decVal s2 ≤ 255) (hv3 : decVal s3 ≤ 255)
    (hr : reservedFirstOctets (decVal s0) (decVal s1)) :
    isPrivateIP (s0 ++ "." ++ s1 ++ "." ++ s2 ++ "." ++ s3) = true := by
  unfold isPrivateIP
  rw [splitDot_quad s0 s1 s2 s3 h0.2 h1.2 h2.2 h3.2]
  simp only [List.map_cons, List.map_nil,
    jsStrToNum_digits s0 h0.1 h0.2, jsStrToNum_digits s1 h1.1 h1.2,
    jsStrToNum_digits s2 h2.1 h2.2, jsStrToNum_digits s3 h3.1 h3.2]
  have hin : ∀ v : Nat, v ≤ 255 →
      ((JSNum.num ((v : Nat) : ℚ)).isNaNB || (JSNum.num ((v : Nat) : ℚ)).ltq 0
        || (JSNum.num ((v : Nat) : ℚ)).gtq 255) = false := by
    intro v hv
    simp only [JSNum.isNaNB, JSNum.ltq, JSNum.gtq, Bool.false_or, Bool.or_eq_false_iff,
      decide_eq_false_iff_not, not_lt]
    constructor
    · positivity
    · exact_mod_cast hv
  rw [if_neg]
  · simp only [List.getD, List.get?_cons_zero, List.get?_cons_succ, Option.getD_some]
    simp only [JSNum.eqq, JSNum.geq, JSNum.leq, Bool.or_eq_true, Bool.and_eq_true,
      decide_eq_true_eq, beq_iff_eq]
    rcases hr with hA | ⟨hB1, hB2, hB3⟩ | ⟨hC1, hC2⟩ | hD | ⟨hE1, hE2⟩
    · simp [hA]
    · simp [hB1, hB2, hB3, Nat.ofNat_le_cast, Nat.cast_le_ofNat]
    · simp [hC1, hC2]
    · simp [hD]
    · simp [hE1, hE2]
  · push_neg
    refine ⟨by simp, ?_⟩
    intro hany
    simp only [List.any_cons, List.any_nil] at hany
    rw [hin _ hv0, hin _ hv1, hin _ hv2, hin _ hv3] at hany
    simp at hany

/-- Claim C3: a fresh address written as a decimal dotted quad lying in one of
the reserved ranges resolves to no location, appends exactly one `Private`
row for that address, and never invokes the external lookup. -/
theorem private_address_cached_no_lookup (geo : String → Option (ℚ × ℚ)) (db : Cache)
    (s0 s1 s2 s3 : String)
    (h0 : s0.toList ≠ [] ∧ ∀ c ∈ s0.toList, c.isDigit = true)
    (h1 : s1.toList ≠ [] ∧ ∀ c ∈ s1.toList, c.isDigit = true)
    (h2 : s2.toList ≠ [] ∧ ∀ c ∈ s2.toList, c.isDigit = true)
    (h3 : s3.toList ≠ [] ∧ ∀ c ∈ s3.toList, c.isDigit = true)
    (hv0 : decVal s0 ≤ 255) (hv1 : decVal s1 ≤ 255)
    (hv2 : decVal s2 ≤ 255) (hv3 : decVal s3 ≤ 255)
    (hr : reservedFirstOctets (decVal s0) (decVal s1))
    (hmiss : cacheLookup db (s0 ++ "." ++ s1 ++ "." ++ s2 ++ "." ++ s3) = none) :
    getLocationFromIp geo db (s0 ++ "." ++ s1 ++ "." ++ s2 ++ "." ++ s3)
      = (none, db ++ [(s0 ++ "." ++ s1 ++ "." ++ s2 ++ "." ++ s3, ⟨none, none, true⟩)], false) := by
  unfold getLocationFromIp
  rw [hmiss]
  simp [isPrivateIP_digitQuad s0 s1 s2 s3 h0 h1 h2 h3 hv0 hv1 hv2 hv3 hr]

/-- Witness for C3 at the concrete address `10.0.0.1` against an empty cache:
one `Private` row is written, nothing is returned, and the provider oracle is
not consulted. -/
theorem private_address_cached_no_lookup_witness :
    getLocationFromIp (fun _ => some (1, 2)) [] "10.0.0.1"
      = (none, [("10.0.0.1", ⟨none, none, true⟩)], false) := by
  have := private_address_cached_no_lookup (fun _ => some (1, 2)) [] "10" "0" "0" "1"
    (by decide) (by decide) (by decide) (by decide)
    (by decide) (by decide) (by decide) (by decide)
    (Or.inl (by decide)) rfl
  exact this

/-! ## The cache answers repeated resolutions (C4) -/

theorem cacheLookup_cons (hd : String × CacheRow) (tl : Cache) (ip : String) :
    cacheLookup (hd :: tl) ip = if hd.1 == ip then some hd.2 else cacheLookup tl ip := by
  unfold cacheLookup
  cases hbeq : (hd.1 == ip) <;> simp [List.find?_cons, hbeq]

theorem cacheLookup_append_self (db : Cache) (ip : String) (row : CacheRow)
    (h : cacheLookup db ip = none) :
    cacheLookup (db ++ [(ip, row)]) ip = some row := by
  induction db with
  | nil => simp [cacheLookup, List.find?_cons]
  | cons hd tl ih =>
    rw [cacheLookup_cons] at h
    rw [List.cons_append, cacheLookup_cons]
    cases hbeq : (hd.1 == ip) with
    | true => rw [hbeq] at h; simp at h
    | false =>
      rw [hbeq] at h
      simp only [Bool.false_eq_true, if_false] at h ⊢
      exact ih h

/-- Claim C4: resolving the same address a second time returns the same
result as the first resolution, changes nothing (no new row), never invokes
the external lookup, and is answered from a cache row that is present after
the first resolution — whichever of the Private / Unknown / Located shapes
that row has. -/
theorem second_resolution_from_cache (geo : String → Option (ℚ × ℚ)) (db : Cache)
    (ip : String) :
    (getLocationFromIp geo (getLocationFromIp geo db ip).2.1 ip).1
        = (getLocationFromIp geo db ip).1
    ∧ (getLocationFromIp geo (getLocationFromIp geo db ip).2.1 ip).2.1
        = (getLocationFromIp geo db ip).2.1
    ∧ (getLocationFromIp geo (getLocationFromIp geo db ip).2.1 ip).2.2 = false
    ∧ (cacheLookup (getLocationFromIp geo db ip).2.1 ip).isSome = true := by
  cases hl : cacheLookup db ip with
  | some row =>
    obtain ⟨lat, lng, priv⟩ := row
    cases priv <;> cases lat <;> cases lng <;>
      simp [getLocationFromIp, hl]
  | none =>
    by_cases hp : isPrivateIP ip
    · have hsnd := cacheLookup_append_self db ip ⟨none, none, true⟩ hl
      simp [getLocationFromIp, hl, hp, hsnd]
    · cases hg : geo ip with
      | none =>
        have hsnd := cacheLookup_append_self db ip ⟨none, none, false⟩ hl
        simp [getLocationFromIp, hl, hp, hg, hsnd]
      | some c =>
        obtain ⟨a, b⟩ := c
        have hsnd := cacheLookup_append_self db ip ⟨some a, some b, false⟩ hl
        simp [getLocationFromIp, hl, hp, hg, hsnd]

/-- Witness for C2 at concrete lines: the two-token timeout line `" 3  *"` is
discarded and leaves the output unchanged, while a five-token hop line
parses into its four fields. -/
theorem token_count_five_rule_witness :
    (parseLine " 3  *" = none
      ∧ parseOutput ⟨true, [], fun _ => none, fun _ => none, fun _ => none⟩ [" 3  *"] []
          = parseOutput ⟨true, [], fun _ => none, fun _ => none, fun _ => none⟩ [] [])
    ∧ parseLine " 9  hls-b4-link.ip.twelve99.net (62.115.153.140)  59.623 ms"
        = some (jsStrToNum "9", "hls-b4-link.ip.twelve99.net",
            stripParens "(62.115.153.140)", jsStrToNum "59.623") := by
  constructor
  · exact (token_count_five_rule ⟨true, [], fun _ => none, fun _ => none, fun _ => none⟩
      [] [] [] " 3  *").1 (by decide)
  · have := (token_count_five_rule ⟨true, [], fun _ => none, fun _ => none, fun _ => none⟩
      [] [] [] " 9  hls-b4-link.ip.twelve99.net (62.115.153.140)  59.623 ms").2 (by decide)
    revert this
    decide

/-! ## The city-substring pass (C6) -/

/-- The `DomainAnalysis` the city loop writes for a matching city. -/
def cityDa (c : CityRec) : DomainAnalysis :=
  ⟨strLower c.city, (c.lat, c.lng), some c.population⟩

theorem cityStep_accPop_le (domain : String) (acc : Option DomainAnalysis) (c : CityRec) :
    accPop acc ≤ accPop (cityStep domain acc c) := by
  unfold cityStep
  split
  · split
    · next hg => simp [accPop]; exact le_of_lt (lt_of_lt_of_le hg.2 (le_refl _))
    · exact le_refl _
  · exact le_refl _

theorem cityFold_accPop_le (domain : String) :
    ∀ (l : List CityRec) (acc : Option DomainAnalysis),
      accPop acc ≤ accPop (l.foldl (cityStep domain) acc) := by
  intro l
  induction l with
  | nil => intro acc; exact le_refl _
  | cons c cs ih =>
    intro acc
    exact le_trans (cityStep_accPop_le domain acc c) (ih (cityStep domain acc c))

theorem cityFold_result (domain : String) :
    ∀ (l : List CityRec) (acc : Option DomainAnalysis),
      l.foldl (cityStep domain) acc = acc
      ∨ ∃ c ∈ l, cityMatches domain c = true ∧ 5000 < c.population
          ∧ l.foldl (cityStep domain) acc = some (cityDa c) := by
  intro l
  induction l with
  | nil => intro acc; exact Or.inl rfl
  | cons c cs ih =>
    intro acc
    rw [List.foldl_cons]
    rcases ih (cityStep domain acc c) with h | ⟨c', hc', hm', hp', he'⟩
    · rw [h]
      unfold cityStep
      split
      · next hm =>
        split
        · next hg => exact Or.inr ⟨c, by simp, hm, hg.1, rfl⟩
        · exact Or.inl rfl
      · exact Or.inl rfl
    · exact Or.inr ⟨c', by simp [hc'], hm', hp', he'⟩

theorem cityFold_ge_match (domain : String) :
    ∀ (l : List CityRec) (acc : Option DomainAnalysis) (c : CityRec), c ∈ l →
      cityMatches domain c = true → 5000 < c.population →
      c.population ≤ accPop (l.foldl (cityStep domain) acc) := by
  intro l
  induction l with
  | nil => intro acc c hc; exact absurd hc (List.not_mem_nil c)
  | cons d ds ih =>
    intro acc c hc hm hp
    rcases List.mem_cons.mp hc with rfl | htl
    · rw [List.foldl_cons]
      by_cases hgt : c.population > accPop acc
      · have hstep : cityStep domain acc c = some (cityDa c) := by
          unfold cityStep
          rw [if_pos hm, if_pos ⟨hp, hgt⟩]
          rfl
        rw [hstep]
        have := cityFold_accPop_le domain ds (some (cityDa c))
        simpa [accPop, cityDa] using this
      · push_neg at hgt
        have := cityFold_accPop_le domain ds (cityStep domain acc c)
        exact le_trans (le_trans hgt (cityStep_accPop_le domain acc c)) this
    · rw [List.foldl_cons]
      exact ih (cityStep domain acc d) c htl hm hp

/-- Claim C6: a city entry matches exactly when its name is a
case-insensitive substring of the hostname and longer than 5 characters; any
guess the pass yields comes from a matching entry whose population both
exceeds 5000 and is maximal among all matching entries; the pass yields
nothing iff no matching entry exceeds the 5000 floor; and when the city pass
yields a guess, `resolveHop` returns it directly — the airport token pass
and the address lookup are never consulted and the cache is untouched. -/
theorem city_pass_best_population (cities : List CityRec) (domain : String) :
    (∀ da, cityPass cities domain = some da →
      ∃ c ∈ cities, cityMatches domain c = true ∧ 5000 < c.population ∧ da = cityDa c
        ∧ ∀ c' ∈ cities, cityMatches domain c' = true → c'.population ≤ c.population)
    ∧ (cityPass cities domain = none ↔
        ∀ c ∈ cities, cityMatches domain c = true → c.population ≤ 5000)
    ∧ (∀ (cfg : Config) (ip : String) (db : Cache) (da : DomainAnalysis),
        cfg.tryAirportAndCityMatchBeforeIpLookup = true →
        cityPass cfg.rawCityData domain = some da →
        resolveHop cfg domain ip db = (some da, db, false)) := by
  refine ⟨?_, ⟨?_, ?_⟩, ?_⟩
  · intro da hda
    rcases cityFold_result domain cities none with h | ⟨c, hc, hm, hp, he⟩
    · rw [cityPass] at hda; rw [hda] at h; exact absurd h (by simp)
    · rw [cityPass] at hda
      have hdc : da = cityDa c := by
        rw [hda] at he
        exact Option.some.inj he
      refine ⟨c, hc, hm, hp, hdc, ?_⟩
      intro c' hc' hm'
      by_cases hp' : 5000 < c'.population
      · have hge := cityFold_ge_match domain cities none c' hc' hm' hp'
        rw [hda, hdc] at hge
        simpa [accPop, cityDa] using hge
      · push_neg at hp'
        exact le_trans hp' (le_of_lt hp)
  · intro hnone c hc hm
    by_contra hp
    push_neg at hp
    have := cityFold_ge_match domain cities none c hc hm hp
    rw [cityPass] at hnone
    rw [hnone] at this
    simp [accPop] at this
    exact absurd (lt_of_lt_of_le hp this) (by norm_num)
  · intro hfloor
    rcases cityFold_result domain cities none with h | ⟨c, hc, hm, hp, he⟩
    · exact h
    · exact absurd hp (not_lt.mpr (hfloor c hc hm))
  · intro cfg ip db da hflag hcity
    unfold resolveHop
    rw [hflag]
    simp [hcity]

/-- Witness for C6: with a one-entry city table containing Stockholm
(population above the floor), a hostname containing `stockholm` resolves via
the city pass inside `resolveHop`, without touching the cache, even though
the configuration's airport table maps the token `sto` (via `arn`). -/
theorem city_pass_best_population_witness :
    resolveHop
      ⟨true, [⟨"Stockholm", 1000000, 59, 18⟩],
        (fun k => if k = "stockholm" then some ⟨"Stockholm", 1000000, 59, 18⟩ else none),
        (fun k => if k = "arn" then some ⟨"u", "ESSA", "Stockholm", 59, 17⟩ else none),
        (fun _ => some (1, 2))⟩
      "sto-stockholm1.net" "1.2.3.4" []
      = (some ⟨"stockholm", (59, 18), some 1000000⟩, [], false) := by
  have := (city_pass_best_population [⟨"Stockholm", 1000000, 59, 18⟩] "sto-stockholm1.net").2.2
    ⟨true, [⟨"Stockholm", 1000000, 59, 18⟩],
      (fun k => if k = "stockholm" then some ⟨"Stockholm", 1000000, 59, 18⟩ else none),
      (fun k => if k = "arn" then some ⟨"u", "ESSA", "Stockholm", 59, 17⟩ else none),
      (fun _ => some (1, 2))⟩
    "1.2.3.4" [] ⟨"stockholm", (59, 18), some 1000000⟩ rfl (by decide)
  exact this

/-! ## The airport token pass (C5, C7) -/

theorem usableLookup_iff (aD : String → Option AirportRec) (cD : String → Option CityRec)
    (m : String) (da : DomainAnalysis) :
    usableLookup aD cD m = some da ↔
      ∃ data, aD (strLower m) = some data ∧ data.url ≠ "" ∧ data.icao ≠ "" ∧
        25000 ≤ ((cD (strTrim (strLower data.city))).map (fun c => c.population)).getD 0 ∧
        da = ⟨strUpper m, (data.latitude, data.longitude), none⟩ := by
  cases haD : aD (strLower m) with
  | none => simp [usableLookup, haD]
  | some data =>
    by_cases hcond : data.url = "" ∨ data.icao = "" ∨
        ((cD (strTrim (strLower data.city))).map (fun c => c.population)).getD 0 < 25000
    · simp only [usableLookup, haD]
      rw [if_pos hcond]
      constructor
      · intro h; exact absurd h (by simp)
      · rintro ⟨data', hd', hu', hi', hp', _⟩
        injection hd' with hdd
        subst hdd
        rcases hcond with h | h | h
        · exact absurd h hu'
        · exact absurd h hi'
        · exact absurd hp' (not_le.mpr h)
    · simp only [usableLookup, haD]
      rw [if_neg hcond]
      push_neg at hcond
      constructor
      · intro h
        exact ⟨data, rfl, hcond.1, hcond.2.1, hcond.2.2, (Option.some.inj h).symm⟩
      · rintro ⟨data', hd', _, _, _, hda⟩
        injection hd' with hdd
        subst hdd
        rw [hda]

theorem usableLookup_label (aD : String → Option AirportRec) (cD : String → Option CityRec)
    (m : String) (da : DomainAnalysis) (h : usableLookup aD cD m = some da) :
    da.cityOrAirport = strUpper m := by
  obtain ⟨data, _, _, _, _, hda⟩ := (usableLookup_iff aD cD m da).mp h
  rw [hda]

/-- Claim C7: a token yields a match exactly when its airport entry exists,
has a non-empty URL and a non-empty ICAO, and the city looked up by the
entry's city name has population at least 25000 (0 when the city is absent);
an entry failing any condition behaves as absent — the scan just moves on to
the next token. -/
theorem airport_entry_usability (aD : String → Option AirportRec)
    (cD : String → Option CityRec) :
    (∀ m da, usableLookup aD cD m = some da ↔
      ∃ data, aD (strLower m) = some data ∧ data.url ≠ "" ∧ data.icao ≠ "" ∧
        25000 ≤ ((cD (strTrim (strLower data.city))).map (fun c => c.population)).getD 0 ∧
        da = ⟨strUpper m, (data.latitude, data.longitude), none⟩)
    ∧ (∀ t rest, usableLookup aD cD (normalizeToken t) = none →
        tokenScan aD cD (t :: rest) = tokenScan aD cD rest) := by
  refine ⟨fun m da => usableLookup_iff aD cD m da, ?_⟩
  intro t rest h
  simp [tokenScan, h]

/-- Witness for C7: a usable `arn` entry matches with the uppercased label,
and a token whose entry is absent is skipped, scanning continuing with the
next token. -/
theorem airport_entry_usability_witness :
    usableLookup (fun k => if k = "arn" then some ⟨"u", "ESSA", "Stockholm", 59, 17⟩ else none)
        (fun k => if k = "stockholm" then some ⟨"Stockholm", 1000000, 59, 18⟩ else none)
        "arn" = some ⟨"ARN", (59, 17), none⟩
    ∧ tokenScan (fun k => if k = "arn" then some ⟨"u", "ESSA", "Stockholm", 59, 17⟩ else none)
        (fun k => if k = "stockholm" then some ⟨"Stockholm", 1000000, 59, 18⟩ else none)
        ["qqq", "arn"]
      = tokenScan (fun k => if k = "arn" then some ⟨"u", "ESSA", "Stockholm", 59, 17⟩ else none)
        (fun k => if k = "stockholm" then some ⟨"Stockholm", 1000000, 59, 18⟩ else none)
        ["arn"] := by
  constructor
  · exact ((airport_entry_usability
      (fun k => if k = "arn" then some ⟨"u", "ESSA", "Stockholm", 59, 17⟩ else none)
      (fun k => if k = "stockholm" then some ⟨"Stockholm", 1000000, 59, 18⟩ else none)).1
      "arn" ⟨"ARN", (59, 17), none⟩).mpr
      ⟨⟨"u", "ESSA", "Stockholm", 59, 17⟩, by decide, by decide, by decide, by decide, by decide⟩
  · exact (airport_entry_usability
      (fun k => if k = "arn" then some ⟨"u", "ESSA", "Stockholm", 59, 17⟩ else none)
      (fun k => if k = "stockholm" then some ⟨"Stockholm", 1000000, 59, 18⟩ else none)).2
      "qqq" ["arn"] (by decide)

/-- Modelled from the claim's words (C5): the token pass as the spec states
it, with `/[a-z]{3}/g` applied to the LOWERCASED hostname before scanning. -/
def tokenPassSpec (aD : String → Option AirportRec) (cD : String → Option CityRec)
    (domain : String) : Option DomainAnalysis :=
  tokenScan aD cD (extractTokens (strLower domain).toList)

/-- Counterexample to claim C5 as stated: the source applies `/[a-z]{3}/g` to
the hostname as written, not to its lowercased form. For the hostname
`"STO01"` with a usable `arn` airport entry, the claimed behaviour finds the
token `sto`, normalizes it to `arn` and returns Stockholm-Arlanda, while the
code extracts no token at all and returns nothing. -/
theorem token_regex_not_lowercased_cex :
    ¬ ∀ (aD : String → Option AirportRec) (cD : String → Option CityRec) (domain : String),
        tokenPass aD cD domain = tokenPassSpec aD cD domain := by
  intro hclaim
  have := hclaim
    (fun k => if k = "arn" then some ⟨"u", "ESSA", "Stockholm", 59, 17⟩ else none)
    (fun k => if k = "stockholm" then some ⟨"Stockholm", 1000000, 59, 18⟩ else none)
    "STO01"
  revert this
  decide

theorem extractTokensF_shape :
    ∀ (fuel : Nat) (l : List Char) (t : String), t ∈ extractTokensF fuel l →
      (∃ a b c, t = String.mk [a, b, c]
        ∧ lcLetter a = true ∧ lcLetter b = true ∧ lcLetter c = true)
      ∧ ∃ pre suf, l = pre ++ t.toList ++ suf := by
  intro fuel
  induction fuel with
  | zero => intro l t ht; simp [extractTokensF] at ht
  | succ fuel ih =>
    intro l t ht
    match l with
    | [] => simp [extractTokensF] at ht
    | [a] => simp [extractTokensF] at ht
    | [a, b] => simp [extractTokensF] at ht
    | a :: b :: c :: rest =>
      rw [extractTokensF] at ht
      by_cases hlc : (lcLetter a && lcLetter b && lcLetter c) = true
      · rw [if_pos hlc] at ht
        rcases List.mem_cons.mp ht with rfl | htl
        · have h3 := Bool.and_eq_true .. ▸ hlc
          exact ⟨⟨a, b, c, rfl, (Bool.and_eq_true .. ▸ h3.1).1,
            (Bool.and_eq_true .. ▸ h3.1).2, h3.2⟩, [], rest, rfl⟩
        · obtain ⟨hshape, pre, suf, hdecomp⟩ := ih rest t htl
          exact ⟨hshape, a :: b :: c :: pre, suf, by rw [hdecomp]; simp⟩
      · rw [if_neg hlc] at ht
        obtain ⟨hshape, pre, suf, hdecomp⟩ := ih (b :: c :: rest) t ht
        exact ⟨hshape, a :: pre, suf, by rw [hdecomp]; simp⟩

/-- Claim C5 (amended): the candidate tokens are the `/[a-z]{3}/g` matches of
the hostname as written — so uppercase letters never participate; each token
is a run of three lowercase letters occurring contiguously in the hostname;
tokens are scanned in order, each normalized and looked up, the first usable
match is returned labeled with the uppercased normalized code, and no
further token is scanned after a match. -/
theorem token_pass_on_raw_hostname (aD : String → Option AirportRec)
    (cD : String → Option CityRec) (domain : String) :
    tokenPass aD cD domain = tokenScan aD cD (extractTokens domain.toList)
    ∧ (∀ t ∈ extractTokens domain.toList,
        (∃ a b c, t = String.mk [a, b, c]
          ∧ lcLetter a = true ∧ lcLetter b = true ∧ lcLetter c = true)
        ∧ ∃ pre suf, domain.toList = pre ++ t.toList ++ suf)
    ∧ (∀ t rest da, usableLookup aD cD (normalizeToken t) = some da →
        tokenScan aD cD (t :: rest) = some da
        ∧ da.cityOrAirport = strUpper (normalizeToken t))
    ∧ (∀ t rest, usableLookup aD cD (normalizeToken t) = none →
        tokenScan aD cD (t :: rest) = tokenScan aD cD rest) := by
  refine ⟨rfl, fun t ht => extractTokensF_shape domain.toList.length domain.toList t ht,
    ?_, ?_⟩
  · intro t rest da h
    exact ⟨by simp [tokenScan, h], usableLookup_label aD cD _ da h⟩
  · intro t rest h
    simp [tokenScan, h]

/-- Witness for the amended C5: the already-lowercase token `sto` normalizes
to `arn` and wins immediately with label `ARN`; an unusable token is skipped
in favour of the rest of the scan. -/
theorem token_pass_on_raw_hostname_witness :
    tokenScan (fun k => if k = "arn" then some ⟨"u", "ESSA", "Stockholm", 59, 17⟩ else none)
        (fun k => if k = "stockholm" then some ⟨"Stockholm", 1000000, 59, 18⟩ else none)
        ["sto", "zzz"] = some ⟨"ARN", (59, 17), none⟩
    ∧ tokenScan (fun k => if k = "arn" then some ⟨"u", "ESSA", "Stockholm", 59, 17⟩ else none)
        (fun k => if k = "stockholm" then some ⟨"Stockholm", 1000000, 59, 18⟩ else none)
        ["zzz", "sto"]
      = tokenScan (fun k => if k = "arn" then some ⟨"u", "ESSA", "Stockholm", 59, 17⟩ else none)
        (fun k => if k = "stockholm" then some ⟨"Stockholm", 1000000, 59, 18⟩ else none)
        ["sto"] := by
  constructor
  · exact ((token_pass_on_raw_hostname
      (fun k => if k = "arn" then some ⟨"u", "ESSA", "Stockholm", 59, 17⟩ else none)
      (fun k => if k = "stockholm" then some ⟨"Stockholm", 1000000, 59, 18⟩ else none)
      "sto").2.2.1 "sto" ["zzz"] ⟨"ARN", (59, 17), none⟩ (by decide)).1
  · exact (token_pass_on_raw_hostname
      (fun k => if k = "arn" then some ⟨"u", "ESSA", "Stockholm", 59, 17⟩ else none)
      (fun k => if k = "stockholm" then some ⟨"Stockholm", 1000000, 59, 18⟩ else none)
      "zzz").2.2.2 "zzz" ["sto"] (by decide)

/-! ## Rate limiting and provider fallback (C8, C9) -/

/-- Claim C8: a 429 below the ceiling sleeps the provider-supplied delay
(seconds × 1000 when the header parses, 5000 ms when absent) and retries the
same provider with the retry counter incremented; at the ceiling the provider
is abandoned with no further fetch or wait; with the default ceiling 3, a
persistently rate-limited first provider is fetched exactly 4 times with 3
waits, and then the second provider is consulted with a fresh retry state
rather than retrying the first further. -/
theorem rate_limit_bounded_retry (resp resp2 : Nat → FetchOutcome)
    (ras : Nat → Option String) :
    (∀ maxRetries retries ra, retries < maxRetries → resp retries = .rate429 ra →
      tryWithRetry resp maxRetries retries =
        ⟨(tryWithRetry resp maxRetries (retries + 1)).body,
         (tryWithRetry resp maxRetries (retries + 1)).fetches + 1,
         waitOf ra :: (tryWithRetry resp maxRetries (retries + 1)).waits⟩)
    ∧ (∀ s k, jsParseInt s = .num k → waitOf (some s) = .num (k * 1000))
    ∧ waitOf none = .num 5000
    ∧ (∀ maxRetries retries ra, maxRetries ≤ retries → resp retries = .rate429 ra →
      tryWithRetry resp maxRetries retries = ⟨nullBody, 1, []⟩)
    ∧ ((∀ n, resp n = .rate429 (ras n)) →
      tryWithRetry resp 3 0 = ⟨nullBody, 4, [waitOf (ras 0), waitOf (ras 1), waitOf (ras 2)]⟩
      ∧ (getGeolocation resp resp2 3).p1
          = ⟨nullBody, 4, [waitOf (ras 0), waitOf (ras 1), waitOf (ras 2)]⟩
      ∧ (getGeolocation resp resp2 3).p2 = some (tryWithRetry resp2 3 0)) := by
  have hbelow : ∀ maxRetries retries ra, retries < maxRetries →
      resp retries = .rate429 ra →
      tryWithRetry resp maxRetries retries =
        ⟨(tryWithRetry resp maxRetries (retries + 1)).body,
         (tryWithRetry resp maxRetries (retries + 1)).fetches + 1,
         waitOf ra :: (tryWithRetry resp maxRetries (retries + 1)).waits⟩ := by
    intro maxRetries retries ra hlt hra
    rw [tryWithRetry_recurrence resp maxRetries retries ra hra, if_neg (not_le.mpr hlt)]
  have hceil : ∀ maxRetries retries ra, maxRetries ≤ retries →
      resp retries = .rate429 ra →
      tryWithRetry resp maxRetries retries = ⟨nullBody, 1, []⟩ := by
    intro maxRetries retries ra hle hra
    rw [tryWithRetry_recurrence resp maxRetries retries ra hra, if_pos hle]
  refine ⟨hbelow, ?_, rfl, hceil, ?_⟩
  · intro s k hk
    have hs : s ≠ "" := by
      rintro rfl
      rw [show jsParseInt "" = .nan from rfl] at hk
      exact absurd hk (by simp)
    simp [waitOf, hs, hk, JSNum.mulPos]
  · intro hall
    have e3 : tryWithRetry resp 3 3 = ⟨nullBody, 1, []⟩ :=
      hceil 3 3 (ras 3) (le_refl 3) (hall 3)
    have e2 : tryWithRetry resp 3 2 = ⟨nullBody, 2, [waitOf (ras 2)]⟩ := by
      rw [hbelow 3 2 (ras 2) (by omega) (hall 2), e3]
    have e1 : tryWithRetry resp 3 1 = ⟨nullBody, 3, [waitOf (ras 1), waitOf (ras 2)]⟩ := by
      rw [hbelow 3 1 (ras 1) (by omega) (hall 1), e2]
    have e0 : tryWithRetry resp 3 0
        = ⟨nullBody, 4, [waitOf (ras 0), waitOf (ras 1), waitOf (ras 2)]⟩ := by
      rw [hbelow 3 0 (ras 0) (by omega) (hall 0), e1]
    have hp1 : providerCheck nullBody "lat" "lon" = none := rfl
    refine ⟨e0, ?_, ?_⟩ <;>
      (cases hr2 : providerCheck (tryWithRetry resp2 3 0).body "latitude" "longitude" <;>
        simp [getGeolocation, e0, hp1, hr2])

/-- Witness for C8: with `Retry-After: 2` on every attempt, the first
provider is fetched 4 times with three 2000 ms waits, and the second
provider is then consulted with its own fresh retry state. -/
theorem rate_limit_bounded_retry_witness :
    tryWithRetry (fun _ => .rate429 (some "2")) 3 0
      = ⟨nullBody, 4, [waitOf (some "2"), waitOf (some "2"), waitOf (some "2")]⟩
    ∧ waitOf (some "2") = .num 2000
    ∧ (getGeolocation (fun _ => .rate429 (some "2")) (fun _ => .fetchErr) 3).p2
      = some (tryWithRetry (fun _ => .fetchErr) 3 0) := by
  have h := (rate_limit_bounded_retry (fun _ => .rate429 (some "2")) (fun _ => .fetchErr)
    (fun _ => some "2")).2.2.2.2 (fun n => rfl)
  refine ⟨h.1, ?_, h.2.2⟩
  have h2 := (rate_limit_bounded_retry (fun _ => .rate429 (some "2")) (fun _ => .fetchErr)
    (fun _ => some "2")).2.1 "2" 2 (by decide)
  rw [h2]
  norm_num

/-- Claim C9: a provider body carrying both coordinate keys is accepted
whenever both values pass `valid` — in particular the exact pair `(0, 0)` —
and the accepted pair is returned with the second provider never consulted;
with both keys present, fallthrough to the second provider happens exactly
when one of the values is falsy-and-nonzero; and an address resolving to
`(0, 0)` is persisted as a Located row (`lat`/`lng` = 0, not private). -/
theorem zero_coordinates_accepted (resp2 : Nat → FetchOutcome) (maxRetries : Nat)
    (fields : List (String × JSVal)) (la lo : JSVal)
    (hla : lookupField fields "lat" = some la) (hlo : lookupField fields "lon" = some lo) :
    ((validB la && validB lo) = true →
      getGeolocation (fun _ => .okBody (.vobj fields)) resp2 maxRetries
        = ⟨some (jsToNumber la, jsToNumber lo), ⟨.vobj fields, 1, []⟩, none⟩)
    ∧ ((validB la && validB lo) = false →
      ((getGeolocation (fun _ => .okBody (.vobj fields)) resp2 maxRetries).p2).isSome = true)
    ∧ (la = .vnum 0 → lo = .vnum 0 →
      getGeolocation (fun _ => .okBody (.vobj fields)) resp2 maxRetries
        = ⟨some (.num 0, .num 0), ⟨.vobj fields, 1, []⟩, none⟩)
    ∧ validB (.vnum 0) = true
    ∧ (∀ (db : Cache) (ip : String), cacheLookup db ip = none → isPrivateIP ip = false →
      getLocationFromIp (fun _ => some (0, 0)) db ip
        = (some (0, 0), db ++ [(ip, ⟨some 0, some 0, false⟩)], true)) := by
  have htw : tryWithRetry (fun _ => FetchOutcome.okBody (.vobj fields)) maxRetries 0
      = ⟨.vobj fields, 1, []⟩ := by
    rw [tryWithRetry, tryWithRetryF.eq_def]
  have hpc : providerCheck (.vobj fields) "lat" "lon"
      = if validB la && validB lo then some (jsToNumber la, jsToNumber lo) else none := by
    unfold providerCheck
    simp [JSVal.truthy, JSVal.isObjType, JSVal.hasField, JSVal.getField, hla, hlo]
  have hyes : (validB la && validB lo) = true →
      getGeolocation (fun _ => .okBody (.vobj fields)) resp2 maxRetries
        = ⟨some (jsToNumber la, jsToNumber lo), ⟨.vobj fields, 1, []⟩, none⟩ := by
    intro hv
    simp [getGeolocation, htw, hpc, hv]
  refine ⟨hyes, ?_, ?_, by decide, ?_⟩
  · intro hv
    cases hr2 : providerCheck (tryWithRetry resp2 maxRetries 0).body "latitude" "longitude" <;>
      simp [getGeolocation, htw, hpc, hv, hr2]
  · rintro rfl rfl
    simpa using hyes (by decide)
  · intro db ip hmiss hpub
    simp [getLocationFromIp, hmiss, hpub]

/-- Witness for C9: a first-provider body of `lat = 0, lon = 0` yields the
accepted result `(0, 0)` after a single fetch, with no fallthrough. -/
theorem zero_coordinates_accepted_witness :
    getGeolocation (fun _ => .okBody (.vobj [("lat", .vnum 0), ("lon", .vnum 0)]))
        (fun _ => .fetchErr) 3
      = ⟨some (.num 0, .num 0), ⟨.vobj [("lat", .vnum 0), ("lon", .vnum 0)], 1, []⟩, none⟩ :=
  (zero_coordinates_accepted (fun _ => .fetchErr) 3 [("lat", .vnum 0), ("lon", .vnum 0)]
    (.vnum 0) (.vnum 0) rfl rfl).2.2.1 rfl rfl

/-! ## Non-quad addresses and the classifier's coercion (C10) -/

/-- Formalization of claim C10's hypothesis, from its words: the address
splits on `'.'` into exactly four decimal components (digit strings), each
with value between 0 and 255. -/
def decimalDottedQuadB (s : String) : Bool :=
  (splitDot s).length == 4 &&
  (splitDot s).all (fun t => !t.toList.isEmpty && t.toList.all Char.isDigit
    && decide (decVal t ≤ 255))

/-- Counterexample to claim C10 as stated: `"10.0.0.0x1"` is not four
dot-separated decimal components (its last component is a hexadecimal
literal), yet JavaScript's `Number` coercion maps `0x1` to 1, so the
classifier declares the address private; on a cache miss the resolver then
short-circuits to a Private row instead of attempting a provider lookup. -/
theorem non_decimal_quad_cex :
    ¬ ∀ s : String, decimalDottedQuadB s = false →
        (isPrivateIP s = false ∧
          ∀ (geo : String → Option (ℚ × ℚ)) (db : Cache), cacheLookup db s = none →
            (getLocationFromIp geo db s).2.2 = true) := by
  intro hclaim
  have := (hclaim "10.0.0.0x1" (by decide)).1
  revert this
  decide

/-- The guard the source actually implements: four `'.'`-separated components
whose JavaScript `Number` coercion lands in `[0, 255]` (also satisfied by
hexadecimal, exponent-notation and whitespace-padded components). -/
def jsQuadInRange (s : String) : Bool :=
  ((splitDot s).map jsStrToNum).length == 4 &&
  !((splitDot s).map jsStrToNum).any (fun p => p.isNaNB || p.ltq 0 || p.gtq 255)

/-- Claim C10 (amended): for every address string that does not split on
`'.'` into exactly four components whose JavaScript numeric coercion lands
in `[0, 255]`, the classifier returns false, and on a cache miss the
resolver treats the address as public: it invokes the provider lookup and
persists a non-private row carrying the lookup's outcome. -/
theorem non_js_quad_treated_public (s : String) (h : jsQuadInRange s = false) :
    isPrivateIP s = false
    ∧ ∀ (geo : String → Option (ℚ × ℚ)) (db : Cache), cacheLookup db s = none →
      getLocationFromIp geo db s
        = (geo s, db ++ [(s, ⟨(geo s).map Prod.fst, (geo s).map Prod.snd, false⟩)], true) := by
  have hcond : ((splitDot s).map jsStrToNum).length ≠ 4
      ∨ ((splitDot s).map jsStrToNum).any (fun p => p.isNaNB || p.ltq 0 || p.gtq 255)
          = true := by
    simp only [jsQuadInRange] at h
    by_cases h4 : ((splitDot s).map jsStrToNum).length = 4
    · right
      simp [h4] at h
      simpa using h
    · exact Or.inl h4
  have hpriv : isPrivateIP s = false := by
    unfold isPrivateIP
    rw [if_pos hcond]
  refine ⟨hpriv, ?_⟩
  intro geo db hmiss
  simp [getLocationFromIp, hmiss, hpriv]

/-- Witness for the amended C10 at the IPv6 loopback string `"::1"`: the
classifier rejects it and the resolver takes the public path, invoking the
provider oracle and persisting its outcome in a non-private row. -/
theorem non_js_quad_treated_public_witness :
    isPrivateIP "::1" = false
    ∧ getLocationFromIp (fun _ => some (5, 6)) [] "::1"
      = (some (5, 6), [("::1", ⟨some 5, some 6, false⟩)], true) := by
  have h := non_js_quad_treated_public "::1" (by decide)
  exact ⟨h.1, h.2 (fun _ => some (5, 6)) [] rfl⟩

end Traceroute
